/-
  Verification of the ACL mask-matching core of the eva4-common repository
  (src/acl.rs together with the mask/OID helpers of src/lib.rs).

  Strings are modelled with Lean `String`; slash-splitting mirrors Rust's
  `str::split('/')` via an explicit recursive splitter over the character
  list, so that its algebra (splitting an appended path) is provable.
-/
import Mathlib

namespace Eva

/-! ### Character / string helpers mirroring `str::split('/')` and `join("/")` -/

/-- Split a character list on a separator, as Rust `str::split` does:
the empty input yields one empty piece, and consecutive separators yield
empty pieces. -/
def splitSegAux (sep : Char) : List Char → List (List Char)
  | [] => [[]]
  | c :: cs =>
    let r := splitSegAux sep cs
    if c = sep then [] :: r
    else
      match r with
      | [] => [[c]]
      | s :: ss => (c :: s) :: ss

/-- Model of Rust `path.split('/')` collected into a list. -/
def splitSeg (s : String) : List String :=
  (splitSegAux '/' s.data).map List.asString

/-- Model of Rust `chunks.join("/")`. -/
def joinSeg : List String → String
  | [] => ""
  | [c] => c
  | c :: cs => c ++ "/" ++ joinSeg cs

/-- Model of `s` contains the character `c` (model of Rust `str::contains(char)`). -/
def hasChar (s : String) (c : Char) : Bool :=
  s.data.contains c

/-! ### Wildcard tokens (src/lib.rs)

`WILDCARD = ["#", "*"]`, `MATCH_ANY = ["+", "?"]`. -/

/-- Model of `is_str_wildcard` from src/lib.rs: the string is `#` or `*`. -/
def isStrWildcard (s : String) : Bool :=
  s == "#" || s == "*"

/-- Model of `is_str_any` from src/lib.rs: the string is `+` or `?`. -/
def isStrAny (s : String) : Bool :=
  s == "+" || s == "?"

/-! ### Errors (src/lib.rs `Error` / `ErrorKind`, the kinds used by the ACL core) -/

/-- The `ErrorKind` variants produced by the ACL mask code. -/
inductive ErrKind where
  | invalidData
  | accessDenied
  | unsupported
  deriving DecidableEq, Repr

/-- Model of `Error`: a kind plus a diagnostic message. -/
structure Err where
  kind : ErrKind
  message : String
  deriving DecidableEq, Repr

/-- Model of `Error::invalid_data(msg)`. -/
def Err.invalidData (msg : String) : Err := ⟨ErrKind.invalidData, msg⟩

/-- Model of `Error::access(msg)`. -/
def Err.access (msg : String) : Err := ⟨ErrKind.accessDenied, msg⟩

/-- Model of `EResult<T>`. -/
abbrev EResult (α : Type) := Except Err α

instance {ε α : Type} [DecidableEq ε] [DecidableEq α] : DecidableEq (Except ε α) := fun a b =>
  match a, b with
  | .error e1, .error e2 =>
    if h : e1 = e2 then .isTrue (by rw [h])
    else .isFalse (fun hc => h (Except.error.inj hc))
  | .ok v1, .ok v2 =>
    if h : v1 = v2 then .isTrue (by rw [h])
    else .isFalse (fun hc => h (Except.ok.inj hc))
  | .error _, .ok _ => .isFalse (fun hc => Except.noConfusion hc)
  | .ok _, .error _ => .isFalse (fun hc => Except.noConfusion hc)

def ERR_INVALID_OID_MASK : String := "Invalid OID mask format"
def ERR_PATH_MASK_EMPTY : String := "Empty path mask"
def ERR_INVALID_OID_MASK_OP : String := "Invalid OID mask for this op"
def ERR_INVALID_OID : String := "Invalid OID format"
def ERR_OID_TOO_LONG : String := "OID too long"

/-! ### ItemKind (src/lib.rs) -/

/-- Model of `ItemKind`: the closed enumeration of item kinds. -/
inductive ItemKind where
  | unit
  | sensor
  | lvar
  | lmacroKind
  deriving DecidableEq, Repr

/-- Model of `ItemKind::as_str`. -/
def ItemKind.asStr : ItemKind → String
  | .unit => "unit"
  | .sensor => "sensor"
  | .lvar => "lvar"
  | .lmacroKind => "lmacro"

/-- Model of `FromStr for ItemKind`. -/
def ItemKind.fromStr (s : String) : EResult ItemKind :=
  if s == "unit" || s == "U" then .ok .unit
  else if s == "sensor" || s == "S" then .ok .sensor
  else if s == "lvar" || s == "LV" then .ok .lvar
  else if s == "lmacro" || s == "K" then .ok .lmacroKind
  else .error (Err.invalidData ("Invalid item type: " ++ s))

instance : BEq ItemKind := ⟨fun a b => decide (a = b)⟩

/-! ### OID (src/lib.rs)

Only the shape consumed by the ACL code is modelled: the kind together with
`full_id` (the part of `oid_str` after the `kind:` prefix).  `as_path` is
`kind/full_id`, exactly the `path_str` field built by the constructors. -/

/-- The `OID` shape the masks consume: a kind and the `full_id` string. -/
structure OID where
  kind : ItemKind
  fullId : String
  deriving DecidableEq, Repr

/-- Model of `OID::as_path` = `"{kind}/{full_id}"`. -/
def OID.asPath (o : OID) : String :=
  o.kind.asStr ++ "/" ++ o.fullId

/-- Model of `OID`'s `Display`: `"{kind}:{full_id}"`. -/
def OID.asStr (o : OID) : String :=
  o.kind.asStr ++ ":" ++ o.fullId

/-- Model of `OID::id`: the part of `full_id` after the last `/` (the whole
`full_id` when it has no `/`), per the `grp_pos = id.rfind('/')` logic of
`_new0`. -/
def OID.idPart (o : OID) : String :=
  (splitSeg o.fullId).getLastD ""

/-- Model of `OID::group`: the part of `full_id` before the last `/`, if any. -/
def OID.group (o : OID) : Option String :=
  if (splitSeg o.fullId).length ≤ 1 then none
  else some (joinSeg (splitSeg o.fullId).dropLast)

/-- Model of `OID::is_wildcard`. -/
def OID.isWildcard (o : OID) : Bool :=
  isStrWildcard o.idPart

/-- Model of `OID::to_wildcard_str(wildcard_suffix)`. -/
def OID.toWildcardStr (o : OID) (w : String) : String :=
  o.kind.asStr ++ ":" ++ (match o.group with
    | some g => g ++ "/"
    | none => "") ++ w

/-- Model of `OID::new0_unchecked(kind, id)`: no character validation; rejects an
empty id and an over-long one (`id.len() + kind_str.len() >= u16::MAX`). -/
def OID.new0Unchecked (kind : ItemKind) (id : String) : EResult OID :=
  if id == "" then .error (Err.invalidData ERR_INVALID_OID)
  else if id.utf8ByteSize + kind.asStr.utf8ByteSize ≥ 65535 then
    .error (Err.invalidData ERR_OID_TOO_LONG)
  else .ok ⟨kind, id⟩

/-! ### PathMask (src/acl.rs) -/

/-- Model of `PathMask`: `chunks == none` is the bare-wildcard "match anything"
mask; otherwise the ordered chunk list produced by parsing. -/
structure PathMask where
  chunks : Option (List String)
  deriving DecidableEq, Repr

/-- Model of `PathMask::new_any`. -/
def PathMask.newAny : PathMask := ⟨none⟩

/-- Model of `PathMask::is_any`. -/
def PathMask.isAny (m : PathMask) : Bool := m.chunks.isNone

/-- The loop body of `PathMask::matches_split`: the subject iterator is
advanced first; when the subject is exhausted the mask must be exhausted
too; a wildcard mask chunk accepts immediately; an any chunk consumes one
subject segment; a literal chunk must equal the subject segment. -/
def msLoop : List String → List String → Bool
  | ms, [] => ms.isEmpty
  | [], _ :: _ => false
  | m :: ms, i :: is =>
    if isStrWildcard m then true
    else if !isStrAny m && i != m then false
    else msLoop ms is

/-- Model of `PathMask::matches_split` on an already-split subject. -/
def PathMask.matchesSplit (m : PathMask) (segs : List String) : Bool :=
  match m.chunks with
  | none => true
  | some ms => msLoop ms segs

/-- Matching a `PathMask` against a path string: `matches_split(&mut path.split('/'))`. -/
def PathMask.matchesPath (m : PathMask) (p : String) : Bool :=
  m.matchesSplit (splitSeg p)

/-- The chunk-collecting loop of `FromStr for PathMask`: push chunks until
the first wildcard chunk, which is recorded as `"#"` and stops the scan. -/
def truncChunks : List String → List String
  | [] => []
  | c :: cs => if isStrWildcard c then ["#"] else c :: truncChunks cs

/-- Model of `FromStr for PathMask`. -/
def PathMask.fromStr (s : String) : EResult PathMask :=
  if s == "" then .error (Err.invalidData ERR_PATH_MASK_EMPTY)
  else if isStrWildcard s then .ok PathMask.newAny
  else .ok ⟨some (truncChunks (splitSeg s))⟩

/-- Model of `Display for PathMask`: join the chunks with `/`, or `#` for the
bare-wildcard mask. -/
def PathMask.render (m : PathMask) : String :=
  match m.chunks with
  | some ch => joinSeg ch
  | none => "#"

/-! ### OIDMask (src/acl.rs) -/

def OID_MASK_ALLOWED_SYMBOLS : String := "~_.()[]-+?#*\\"

/-- Model of `OIDMask`: optional kind filter plus a `PathMask` over the full id. -/
structure OIDMask where
  kind : Option ItemKind
  path : PathMask
  deriving DecidableEq, Repr

/-- Model of `OIDMask::new_any`. -/
def OIDMask.newAny : OIDMask := ⟨none, PathMask.newAny⟩

/-- Model of `OIDMask::check`: length bound and character allow-list (alphanumeric,
the mask punctuation set, or `/`).  Alphanumerics are checked with the
ASCII classifier; the repository's masks are ASCII. -/
def OIDMask.check (s : String) : EResult Unit :=
  if s.utf8ByteSize > 65000 then .error (Err.invalidData "OID mask too long")
  else match s.data.find? (fun c =>
      !(c.isAlphanum || OID_MASK_ALLOWED_SYMBOLS.data.contains c || c == '/')) with
    | some c => .error (Err.invalidData ("Invalid symbol in OID mask: " ++ String.singleton c))
    | none => .ok ()

/-- Index of the first occurrence of `c` in `s` (Rust `str::find(char)`),
as a character index. -/
def firstIdx (s : String) (c : Char) : Option Nat :=
  s.data.findIdx? (· = c)

/-- Character-index slicing used to model `&s[..tpos]` / `&s[tpos+1..]`
(the sliced strings here are ASCII, so byte and character indices agree). -/
def strTake (s : String) (n : Nat) : String := (s.data.take n).asString

def strDrop (s : String) (n : Nat) : String := (s.data.drop n).asString

/-- Model of `OIDMask::parse_oid_mask(s, c)`: bare wildcard parses to the any-mask;
with no separator the whole string must be a kind and the path is the
any-mask; otherwise the part before the separator is the kind filter (`+`
for none) and the part after it is character-checked and parsed as a
`PathMask`. -/
def OIDMask.parseOidMask (s : String) (c : Char) : EResult OIDMask :=
  if isStrWildcard s then .ok OIDMask.newAny
  else
    match firstIdx s c with
    | none =>
      match ItemKind.fromStr s with
      | .error e => .error e
      | .ok kind => .ok ⟨some kind, PathMask.newAny⟩
    | some tpos =>
      if tpos == s.length then
        .error (Err.invalidData (ERR_INVALID_OID_MASK ++ ": " ++ s))
      else
        let tpStr := strTake s tpos
        match (if isStrAny tpStr then .ok none
               else match ItemKind.fromStr tpStr with
                 | .error e => .error e
                 | .ok k => .ok (some k) : EResult (Option ItemKind)) with
        | .error e => .error e
        | .ok kind =>
          let p := strDrop s (tpos + 1)
          match OIDMask.check p with
          | .error e => .error e
          | .ok _ =>
            match PathMask.fromStr p with
            | .error e => .error e
            | .ok pm => .ok ⟨kind, pm⟩

/-- Model of `FromStr for OIDMask` (separator `:`). -/
def OIDMask.fromStr (s : String) : EResult OIDMask :=
  OIDMask.parseOidMask s ':'

/-- Model of `OIDMask::from_path` (separator `/`). -/
def OIDMask.fromPath (s : String) : EResult OIDMask :=
  OIDMask.parseOidMask s '/'

/-- Model of `OIDMask::as_path`: the path-shaped form inserted into the ACL map. -/
def OIDMask.asPath (m : OIDMask) : String :=
  match m.path.chunks with
  | some _ =>
    (match m.kind with
     | some k => k.asStr
     | none => "+") ++ "/" ++ m.path.render
  | none =>
    match m.kind with
    | some k => k.asStr ++ "/#"
    | none => "#"

/-- Model of `Display for OIDMask`. -/
def OIDMask.render (m : OIDMask) : String :=
  match m.kind with
  | some k => k.asStr ++ ":" ++ m.path.render
  | none => if m.path.isAny then "#" else "+:" ++ m.path.render

/-- Model of `OIDMask::matches(oid)`: the kind filter (when present) must equal the
OID's kind, then `matches_split` runs on `full_id().split('/')`. -/
def OIDMask.matches (m : OIDMask) (oid : OID) : Bool :=
  (match m.kind with
   | some mtp => mtp == oid.kind
   | none => true) && m.path.matchesSplit (splitSeg oid.fullId)

/-- The per-chunk rejection test of `OIDMask::to_wildcard_oid`:
`is_str_any(p) || (is_str_wildcard(p) && i < p.len())` at chunk index `i`. -/
def wcChunkBad (i : Nat) (p : String) : Bool :=
  isStrAny p || (isStrWildcard p && decide (i < p.utf8ByteSize))

/-- The `for (i, p) in ch.iter().enumerate()` rejection scan of
`to_wildcard_oid`, started at index `i`. -/
def wcScanBad (i : Nat) : List String → Bool
  | [] => false
  | p :: ps => wcChunkBad i p || wcScanBad (i + 1) ps

/-- Model of `OIDMask::to_wildcard_oid`: requires a concrete kind; scans the chunk
list with `wcChunkBad`; on success builds `OID::new0_unchecked(kind,
path.to_string())`. -/
def OIDMask.toWildcardOid (m : OIDMask) : EResult OID :=
  match m.kind with
  | some kind =>
    match m.path.chunks with
    | some ch =>
      if wcScanBad 0 ch then
        .error (Err.invalidData ERR_INVALID_OID_MASK_OP)
      else OID.new0Unchecked kind (PathMask.render ⟨some ch⟩)
    | none => OID.new0Unchecked kind (PathMask.render ⟨none⟩)
  | none => .error (Err.invalidData ERR_INVALID_OID_MASK_OP)

/-! ### The ACL map (multi-pattern matcher)

`create_acl_map()` configures `submap::AclMap` with separator `/`,
wildcard tokens `#`/`*` and match-any tokens `+`/`?`; the crate itself is
external to this repository. -/

/-- Modelled from the spec: the external `submap::AclMap` multi-pattern
matcher of §4.3, whose contract is "results identical to: true iff any
stored mask individually matches per the per-mask algorithm" (a linear
per-mask scan is an explicitly conforming implementation).  An inserted
pattern string is tokenised exactly as the per-mask parser tokenises a
non-empty pattern (split on `/`, first wildcard chunk terminal); the
per-mask algorithm is `matches_split`, whose end-of-subject behaviour is
pinned by this repository's own tests (`a/b/#` does not match `a/b`). -/
def aclTokenise (s : String) : Option (List String) :=
  if isStrWildcard s then none else some (truncChunks (splitSeg s))

/-- Modelled from the spec: `AclMap::matches` over the list of inserted
pattern strings (see `aclTokenise`). -/
def aclMapMatches (patterns : List String) (segs : List String) : Bool :=
  patterns.any fun pat => PathMask.matchesSplit ⟨aclTokenise pat⟩ segs

/-! ### PathMaskList (src/acl.rs) -/

/-- Model of `PathMaskList`: the pattern strings inserted into its ACL map. -/
structure PathMaskList where
  patterns : List String
  deriving DecidableEq, Repr

/-- Model of `PathMaskList::from_str_list`: empty entries are skipped, everything
else is inserted verbatim; construction never fails. -/
def PathMaskList.fromStrList (ss : List String) : PathMaskList :=
  ⟨ss.filter (fun s => !(s == ""))⟩

/-- Model of `PathMaskList::matches(path)`. -/
def PathMaskList.matches (l : PathMaskList) (p : String) : Bool :=
  aclMapMatches l.patterns (splitSeg p)

/-- Model of `PathMaskList::is_empty`. -/
def PathMaskList.isEmptyList (l : PathMaskList) : Bool := l.patterns.isEmpty

/-- The empty `PathMaskList` (`Default`). -/
def PathMaskList.default : PathMaskList := ⟨[]⟩

/-! ### OIDMaskList (src/acl.rs) -/

/-- Model of `OIDMaskList`: the deduplicated mask set (`HashSet<OIDMask>`,
modelled as an insertion-ordered duplicate-free list) whose `as_path`
forms are inserted into its ACL map. -/
structure OIDMaskList where
  oidMasks : List OIDMask
  deriving DecidableEq, Repr

/-- Model of `HashSet::insert` on the modelled mask set. -/
def insertMask (l : List OIDMask) (m : OIDMask) : List OIDMask :=
  if l.contains m then l else l ++ [m]

/-- Model of `OIDMaskList::new` from an already-collected set. -/
def OIDMaskList.ofMasks (masks : List OIDMask) : OIDMaskList :=
  ⟨masks.foldl insertMask []⟩

/-- The parsing loop of `OIDMaskList::from_str_list`: every entry (empty
ones included) is parsed in order; the first parse error aborts. -/
def collectOidMasks : List String → EResult (List OIDMask)
  | [] => .ok []
  | s :: ss =>
    match OIDMask.fromStr s with
    | .error e => .error e
    | .ok m =>
      match collectOidMasks ss with
      | .error e => .error e
      | .ok ms => .ok (m :: ms)

/-- Model of `OIDMaskList::from_str_list`. -/
def OIDMaskList.fromStrList (ss : List String) : EResult OIDMaskList :=
  match collectOidMasks ss with
  | .error e => .error e
  | .ok masks => .ok (OIDMaskList.ofMasks masks)

/-- Model of `OIDMaskList::matches(oid)`: the ACL map built from the masks'
`as_path` forms, matched against `oid.as_path()`. -/
def OIDMaskList.matches (l : OIDMaskList) (oid : OID) : Bool :=
  aclMapMatches (l.oidMasks.map OIDMask.asPath) (splitSeg oid.asPath)

/-- Model of `OIDMaskList::is_empty`. -/
def OIDMaskList.isEmptyList (l : OIDMaskList) : Bool := l.oidMasks.isEmpty

/-- Model of `OIDMaskList::as_string_vec`: the `Display` forms of the stored set. -/
def OIDMaskList.asStringVec (l : OIDMaskList) : List String :=
  l.oidMasks.map OIDMask.render

/-- The empty `OIDMaskList` (`Default`). -/
def OIDMaskList.default : OIDMaskList := ⟨[]⟩

/-! ### Op and Acl (src/acl.rs) -/

/-- Model of `Op`: the operation-capability tags. -/
inductive Op where
  | log
  | moderator
  | supervisor
  deriving DecidableEq, Repr

instance : BEq Op := ⟨fun a b => decide (a = b)⟩

/-- Model of `Display for Op`. -/
def Op.render : Op → String
  | .log => "log"
  | .moderator => "moderator"
  | .supervisor => "supervisor"

/-- Model of `AclItemsPvt`: one allow/deny category of the policy record. -/
structure AclItemsPvt where
  items : OIDMaskList
  pvt : PathMaskList
  rpvt : PathMaskList
  deriving DecidableEq, Repr

/-- Model of `Acl`: the policy record (`meta` is irrelevant to evaluation and
omitted). -/
structure Acl where
  id : String
  admin : Bool
  read : AclItemsPvt
  write : AclItemsPvt
  denyRead : AclItemsPvt
  denyWrite : AclItemsPvt
  ops : List Op
  fromIds : List String
  deriving DecidableEq, Repr

/-- Model of `Acl::check_admin`. -/
def Acl.checkAdmin (a : Acl) : Bool := a.admin

/-- Model of `Acl::check_op`. -/
def Acl.checkOp (a : Acl) (op : Op) : Bool :=
  a.admin || a.ops.contains op

/-- Model of `Acl::check_item_read`. -/
def Acl.checkItemRead (a : Acl) (oid : OID) : Bool :=
  a.admin || ((a.read.items.matches oid || a.write.items.matches oid)
    && !a.denyRead.items.matches oid)

/-- Model of `Acl::check_item_write`. -/
def Acl.checkItemWrite (a : Acl) (oid : OID) : Bool :=
  a.admin || (a.write.items.matches oid
    && !a.denyWrite.items.matches oid
    && !a.denyRead.items.matches oid)

/-- Model of `Acl::check_pvt_read`. -/
def Acl.checkPvtRead (a : Acl) (p : String) : Bool :=
  a.admin || (a.read.pvt.matches p && !a.denyRead.pvt.matches p)

/-- Model of `Acl::check_pvt_write`. -/
def Acl.checkPvtWrite (a : Acl) (p : String) : Bool :=
  a.admin || (a.write.pvt.matches p
    && !a.denyWrite.pvt.matches p
    && !a.denyRead.pvt.matches p)

/-- Rust `path.splitn(2, '/')`: the piece before the first `/`, and,
when a `/` is present, everything after it. -/
def splitN2 (p : String) : String × Option String :=
  match splitSeg p with
  | [] => (p, none)
  | [x] => (x, none)
  | x :: xs => (x, some (joinSeg xs))

/-- Rust `str::strip_prefix`: the remainder when `pre` is a prefix. -/
def stripPfx (pre s : String) : Option String :=
  if pre.data.isPrefixOf s.data then some ((s.data.drop pre.data.length).asString)
  else none

/-- The scheme stripping of `check_rpvt_read`: first `https://`, then
`http://`, else the uri unchanged. -/
def stripScheme (uri : String) : String :=
  match stripPfx "https://" uri with
  | some u => u
  | none =>
    match stripPfx "http://" uri with
    | some u => u
    | none => uri

/-- Model of `Acl::check_rpvt_read`. -/
def Acl.checkRpvtRead (a : Acl) (p : String) : Bool :=
  if a.admin then true
  else
    match splitN2 p with
    | (node, some uri) =>
      let strippedPath := node ++ "/" ++ stripScheme uri
      a.read.rpvt.matches strippedPath && !a.denyRead.rpvt.matches strippedPath
    | (_, none) => false

/-- Model of `Acl::require_admin`. -/
def Acl.requireAdmin (a : Acl) : EResult Unit :=
  if a.checkAdmin then .ok () else .error (Err.access "admin access required")

/-- Model of `Acl::require_op`. -/
def Acl.requireOp (a : Acl) (op : Op) : EResult Unit :=
  if a.checkOp op then .ok ()
  else .error (Err.access ("operation access required: " ++ op.render))

/-- Model of `Acl::require_item_read`. -/
def Acl.requireItemRead (a : Acl) (oid : OID) : EResult Unit :=
  if a.checkItemRead oid then .ok ()
  else .error (Err.access ("read access required for: " ++ oid.asStr))

/-- Model of `Acl::require_item_write`. -/
def Acl.requireItemWrite (a : Acl) (oid : OID) : EResult Unit :=
  if a.checkItemWrite oid then .ok ()
  else .error (Err.access ("write access required for: " ++ oid.asStr))

/-- Model of `Acl::require_pvt_read`. -/
def Acl.requirePvtRead (a : Acl) (p : String) : EResult Unit :=
  if a.checkPvtRead p then .ok ()
  else .error (Err.access ("read access required for: " ++ p))

/-- Model of `Acl::require_pvt_write`. -/
def Acl.requirePvtWrite (a : Acl) (p : String) : EResult Unit :=
  if a.checkPvtWrite p then .ok ()
  else .error (Err.access ("write access required for: " ++ p))

/-- Model of `Acl::require_rpvt_read`. -/
def Acl.requireRpvtRead (a : Acl) (p : String) : EResult Unit :=
  if a.checkRpvtRead p then .ok ()
  else .error (Err.access ("read access required for: " ++ p))

/-- Model of `Acl::contains_acl`. -/
def Acl.containsAcl (a : Acl) (aclId : String) : Bool :=
  a.fromIds.any (· == aclId)

/-! ### Lemmas: the splitting machinery -/

theorem asString_data (s : String) : s.data.asString = s := rfl

theorem data_asString (l : List Char) : (l.asString).data = l := rfl

theorem splitSegAux_ne_nil (sep : Char) (l : List Char) : splitSegAux sep l ≠ [] := by
  induction l with
  | nil => simp [splitSegAux]
  | cons c cs ih =>
    simp only [splitSegAux]
    split
    · simp
    · split <;> simp

theorem splitSeg_ne_nil (s : String) : splitSeg s ≠ [] := by
  simp [splitSeg, splitSegAux_ne_nil]

theorem splitSegAux_no_sep (sep : Char) (l : List Char) (h : sep ∉ l) :
    splitSegAux sep l = [l] := by
  induction l with
  | nil => rfl
  | cons c cs ih =>
    simp only [List.mem_cons, not_or] at h
    simp only [splitSegAux, ih h.2]
    rw [if_neg (fun hc => h.1 hc.symm)]

theorem splitSegAux_append (sep : Char) (a b : List Char) (h : sep ∉ a) :
    splitSegAux sep (a ++ sep :: b) = a :: splitSegAux sep b := by
  induction a with
  | nil =>
    simp [splitSegAux]
  | cons c cs ih =>
    simp only [List.mem_cons, not_or] at h
    simp only [List.cons_append, splitSegAux]
    rw [if_neg (fun hc => h.1 hc.symm)]
    simp only [List.append_eq]
    rw [ih h.2]

theorem mem_splitSegAux_no_sep (sep : Char) (l : List Char) :
    ∀ x ∈ splitSegAux sep l, sep ∉ x := by
  induction l with
  | nil => intro x hx; simp [splitSegAux] at hx; simp [hx]
  | cons c cs ih =>
    intro x hx
    simp only [splitSegAux] at hx
    split at hx
    · rcases List.mem_cons.mp hx with h | h
      · simp [h]
      · exact ih x h
    · rename_i hc
      rcases hr : splitSegAux sep cs with _ | ⟨s, ss⟩
      · exact absurd hr (splitSegAux_ne_nil sep cs)
      · rw [hr] at hx
        rcases List.mem_cons.mp hx with h | h
        · subst h
          intro hmem
          rcases List.mem_cons.mp hmem with h | h
          · exact hc h.symm
          · exact ih s (hr ▸ List.mem_cons_self s ss) h
        · exact ih x (hr ▸ List.mem_cons_of_mem s h)

theorem string_data_append (a b : String) : (a ++ b).data = a.data ++ b.data :=
  String.data_append a b

theorem splitSeg_no_slash (s : String) (h : '/' ∉ s.data) : splitSeg s = [s] := by
  simp [splitSeg, splitSegAux_no_sep '/' s.data h, asString_data]

theorem splitSeg_append_slash (a b : String) (h : '/' ∉ a.data) :
    splitSeg (a ++ "/" ++ b) = a :: splitSeg b := by
  have hd : (a ++ "/" ++ b).data = a.data ++ '/' :: b.data := by
    simp [string_data_append]
  simp [splitSeg, hd, splitSegAux_append '/' a.data b.data h, asString_data]

theorem mem_splitSeg_no_slash (s : String) : ∀ c ∈ splitSeg s, '/' ∉ c.data := by
  intro c hc
  simp only [splitSeg, List.mem_map] at hc
  obtain ⟨l, hl, rfl⟩ := hc
  rw [data_asString]
  exact mem_splitSegAux_no_sep '/' s.data l hl

theorem splitSeg_joinSeg (ch : List String) (h1 : ch ≠ [])
    (h2 : ∀ c ∈ ch, '/' ∉ c.data) : splitSeg (joinSeg ch) = ch := by
  induction ch with
  | nil => exact absurd rfl h1
  | cons c cs ih =>
    match cs with
    | [] => exact splitSeg_no_slash c (h2 c (List.mem_cons_self c []))
    | c2 :: cs2 =>
      have : joinSeg (c :: c2 :: cs2) = c ++ "/" ++ joinSeg (c2 :: cs2) := rfl
      rw [this, splitSeg_append_slash c _ (h2 c (List.mem_cons_self c _)),
        ih (by simp) (fun x hx => h2 x (List.mem_cons_of_mem c hx))]

/-! ### Lemmas: well-formed chunk lists -/

/-- The chunk-list invariant established by the `PathMask` parser: a
non-empty list of slash-free chunks in which a wildcard chunk can only be
the final one, and then only as `"#"`. -/
def wfChunks : List String → Bool
  | [] => false
  | [c] => !(c.data.contains '/') && (!isStrWildcard c || c == "#")
  | c :: cs => !(c.data.contains '/') && !isStrWildcard c && wfChunks cs

/-- The `PathMask` invariant: the bare-wildcard mask, or well-formed chunks. -/
def PathMask.wf (m : PathMask) : Bool :=
  match m.chunks with
  | none => true
  | some ch => wfChunks ch

/-- The `OIDMask` invariant: its path is well-formed. -/
def OIDMask.wf (m : OIDMask) : Bool := m.path.wf

theorem contains_eq_false_iff (l : List Char) (c : Char) :
    l.contains c = false ↔ c ∉ l := by
  simp [List.contains]

theorem wfChunks_ne_nil (ch : List String) (h : wfChunks ch = true) : ch ≠ [] := by
  intro hc; subst hc; simp [wfChunks] at h

theorem wfChunks_no_slash (ch : List String) (h : wfChunks ch = true) :
    ∀ c ∈ ch, '/' ∉ c.data := by
  induction ch with
  | nil => intro c hc; simp at hc
  | cons c cs ih =>
    intro x hx
    match cs, hx with
    | [], hx =>
      simp only [List.mem_singleton] at hx
      subst hx
      simp only [wfChunks, Bool.and_eq_true] at h
      exact (contains_eq_false_iff x.data '/').mp (by simpa using h.1)
    | c2 :: cs2, hx =>
      simp only [wfChunks, Bool.and_eq_true] at h
      rcases List.mem_cons.mp hx with h' | h'
      · subst h'
        exact (contains_eq_false_iff x.data '/').mp (by simpa using h.1.1)
      · exact ih (by simpa using h.2) x h'

theorem truncChunks_stable (ch : List String) (h : wfChunks ch = true) :
    truncChunks ch = ch := by
  induction ch with
  | nil => rfl
  | cons c cs ih =>
    match cs with
    | [] =>
      simp only [wfChunks, Bool.and_eq_true, Bool.or_eq_true] at h
      simp only [truncChunks]
      rcases h.2 with h2 | h2
      · rw [if_neg (by simp_all)]
      · have : c = "#" := by simpa using h2
        subst this
        rfl
    | c2 :: cs2 =>
      simp only [wfChunks, Bool.and_eq_true, Bool.not_eq_true'] at h
      have hexp : truncChunks (c :: c2 :: cs2)
          = if isStrWildcard c = true then ["#"] else c :: truncChunks (c2 :: cs2) := rfl
      rw [hexp, if_neg (by simp [h.1.2]), ih (by simp [wfChunks, h.2])]

theorem wfChunks_truncChunks (l : List String) (h1 : l ≠ [])
    (h2 : ∀ c ∈ l, '/' ∉ c.data) : wfChunks (truncChunks l) = true := by
  induction l with
  | nil => exact absurd rfl h1
  | cons c cs ih =>
    have hcs : '/' ∉ c.data := h2 c (List.mem_cons_self c cs)
    have hc' : c.data.contains '/' = false := (contains_eq_false_iff _ _).mpr hcs
    by_cases hw : isStrWildcard c = true
    · have hexp : truncChunks (c :: cs) = ["#"] := by
        cases cs <;> simp [truncChunks, hw]
      rw [hexp]; decide
    · match cs with
      | [] =>
        have hexp : truncChunks [c] = [c] := by simp [truncChunks, hw]
        rw [hexp]
        simp [wfChunks, hw, hc', hcs]
      | c2 :: cs2 =>
        have hstep : truncChunks (c :: c2 :: cs2)
            = if isStrWildcard c = true then ["#"] else c :: truncChunks (c2 :: cs2) := rfl
        rw [hstep, if_neg hw]
        have hrec := ih (by simp) (fun x hx => h2 x (List.mem_cons_of_mem c hx))
        obtain ⟨t, ts, htc⟩ := List.exists_cons_of_ne_nil (wfChunks_ne_nil _ hrec)
        rw [htc] at hrec ⊢
        simp [wfChunks, hw, hc', hcs, hrec]

/-! ### Lemmas: kind strings and wildcard token facts -/

theorem kindStr_no_slash (k : ItemKind) : '/' ∉ (k.asStr).data := by
  cases k <;> decide

theorem kindStr_not_wildcard (k : ItemKind) : isStrWildcard k.asStr = false := by
  cases k <;> decide

theorem kindStr_not_any (k : ItemKind) : isStrAny k.asStr = false := by
  cases k <;> decide

theorem kindStr_beq (k k' : ItemKind) : (k'.asStr != k.asStr) = !(k == k') := by
  cases k <;> cases k' <;> decide

theorem isStrWildcard_true_iff (s : String) :
    isStrWildcard s = true ↔ s = "#" ∨ s = "*" := by
  simp [isStrWildcard]

theorem isStrWildcard_of_slash (s : String) (h : '/' ∈ s.data) :
    isStrWildcard s = false := by
  rcases hw : isStrWildcard s with _ | _
  · rfl
  · rcases (isStrWildcard_true_iff s).mp hw with rfl | rfl <;> simp at h

/-! ### Lemmas: parser output is well-formed -/

theorem pathMask_fromStr_wf (s : String) (m : PathMask)
    (h : PathMask.fromStr s = .ok m) : PathMask.wf m = true := by
  unfold PathMask.fromStr at h
  split at h
  · cases h
  · split at h
    · cases h; rfl
    · cases h
      exact wfChunks_truncChunks _ (splitSeg_ne_nil s) (mem_splitSeg_no_slash s)

theorem oidMask_parse_wf (s : String) (c : Char) (m : OIDMask)
    (h : OIDMask.parseOidMask s c = .ok m) : OIDMask.wf m = true := by
  unfold OIDMask.parseOidMask at h
  split at h
  · cases h; rfl
  · split at h
    · split at h
      · cases h
      · cases h; rfl
    · split at h
      · cases h
      · dsimp only at h
        split at h
        · cases h
        · split at h
          · cases h
          · split at h
            · cases h
            · rename_i pm hpm
              cases h
              exact pathMask_fromStr_wf _ pm hpm

theorem oidMask_fromStr_wf (s : String) (m : OIDMask)
    (h : OIDMask.fromStr s = .ok m) : OIDMask.wf m = true :=
  oidMask_parse_wf s ':' m h

/-! ### Lemmas: the ACL-map view of a single mask agrees with per-mask matching -/

theorem splitSeg_oid_asPath (oid : OID) :
    splitSeg oid.asPath = oid.kind.asStr :: splitSeg oid.fullId := by
  unfold OID.asPath
  exact splitSeg_append_slash _ _ (kindStr_no_slash oid.kind)

theorem aclTokenise_hash : aclTokenise "#" = none := by decide

theorem aclTokenise_kind_hash (k : ItemKind) :
    aclTokenise (k.asStr ++ "/#") = some [k.asStr, "#"] := by
  cases k <;> decide

theorem truncChunks_cons (c : String) (cs : List String) :
    truncChunks (c :: cs) = if isStrWildcard c = true then ["#"] else c :: truncChunks cs := rfl

theorem aclTokenise_chunks (first : String) (ch : List String)
    (hf1 : '/' ∉ first.data) (hf2 : isStrWildcard first = false)
    (hwf : wfChunks ch = true) :
    aclTokenise (first ++ "/" ++ joinSeg ch) = some (first :: ch) := by
  have hw : isStrWildcard (first ++ "/" ++ joinSeg ch) = false :=
    isStrWildcard_of_slash _ (by simp [string_data_append])
  unfold aclTokenise
  rw [if_neg (by simp [hw]),
    splitSeg_append_slash _ _ hf1,
    splitSeg_joinSeg ch (wfChunks_ne_nil ch hwf) (wfChunks_no_slash ch hwf),
    truncChunks_cons, if_neg (by simp [hf2]), truncChunks_stable ch hwf]

theorem msLoop_cons (m i : String) (ms is : List String) :
    msLoop (m :: ms) (i :: is)
      = if isStrWildcard m = true then true
        else if (!isStrAny m && i != m) = true then false
        else msLoop ms is := rfl

/-- The heart of the list/per-mask equivalence: matching the tokenised
`as_path` form of one mask against the split `as_path` of an OID gives
exactly `OIDMask::matches`. -/
theorem aclMap_single_mask (m : OIDMask) (hwf : OIDMask.wf m = true) (oid : OID) :
    PathMask.matchesSplit ⟨aclTokenise m.asPath⟩ (splitSeg oid.asPath) = m.matches oid := by
  obtain ⟨kopt, chopt⟩ := m
  obtain ⟨chopt⟩ := chopt
  rw [splitSeg_oid_asPath]
  cases chopt with
  | none =>
    cases kopt with
    | none =>
      have hap : OIDMask.asPath ⟨none, ⟨none⟩⟩ = "#" := rfl
      rw [hap, aclTokenise_hash]
      simp [PathMask.matchesSplit, OIDMask.matches]
    | some k =>
      have hap : OIDMask.asPath ⟨some k, ⟨none⟩⟩ = k.asStr ++ "/#" := rfl
      rw [hap, aclTokenise_kind_hash k]
      simp only [PathMask.matchesSplit, OIDMask.matches]
      rw [msLoop_cons, if_neg (by simp [kindStr_not_wildcard k]),
        kindStr_not_any k, kindStr_beq k oid.kind]
      by_cases hk : (k == oid.kind) = true
      · rw [hk, if_neg (by decide)]
        obtain ⟨t, ts, hts⟩ := List.exists_cons_of_ne_nil (splitSeg_ne_nil oid.fullId)
        rw [hts, msLoop_cons, if_pos (by decide)]
        simp
      · have hk' : (k == oid.kind) = false := by simpa using hk
        rw [hk']
        simp
  | some ch =>
    have hwf' : wfChunks ch = true := by
      simpa [OIDMask.wf, PathMask.wf] using hwf
    cases kopt with
    | some k =>
      have hap : OIDMask.asPath ⟨some k, ⟨some ch⟩⟩ = k.asStr ++ "/" ++ joinSeg ch := rfl
      rw [hap, aclTokenise_chunks k.asStr ch (kindStr_no_slash k) (kindStr_not_wildcard k) hwf']
      simp only [PathMask.matchesSplit, OIDMask.matches]
      rw [msLoop_cons, if_neg (by simp [kindStr_not_wildcard k]),
        kindStr_not_any k, kindStr_beq k oid.kind]
      by_cases hk : (k == oid.kind) = true
      · rw [hk]; simp
      · have hk' : (k == oid.kind) = false := by simpa using hk
        rw [hk']
        simp
    | none =>
      have hap : OIDMask.asPath ⟨none, ⟨some ch⟩⟩ = "+" ++ "/" ++ joinSeg ch := rfl
      rw [hap, aclTokenise_chunks "+" ch (by decide) (by decide) hwf']
      simp only [PathMask.matchesSplit, OIDMask.matches]
      rw [msLoop_cons, if_neg (by decide), if_neg (by simp [isStrAny])]
      simp

theorem any_map_general {α β : Type} (l : List α) (f : α → β) (p : β → Bool) :
    (l.map f).any p = l.any (fun x => p (f x)) := by
  induction l with
  | nil => rfl
  | cons x xs ih => simp [List.any_cons, ih]

theorem any_congr_mem {α : Type} (l : List α) (f g : α → Bool)
    (h : ∀ x ∈ l, f x = g x) : l.any f = l.any g := by
  induction l with
  | nil => rfl
  | cons x xs ih =>
    simp only [List.any_cons]
    rw [h x (List.mem_cons_self x xs), ih (fun y hy => h y (List.mem_cons_of_mem x hy))]

/-- Matching a path string against one textual pattern through the
per-mask algorithm: parse it as a `PathMask` and run `matches_split`;
an unparsable pattern matches nothing. -/
def pathMaskStrMatches (s p : String) : Bool :=
  match PathMask.fromStr s with
  | .ok m => m.matchesPath p
  | .error _ => false

theorem tokenise_eq_fromStr (s : String) (h : (s == "") = false) (p : String) :
    PathMask.matchesSplit ⟨aclTokenise s⟩ (splitSeg p) = pathMaskStrMatches s p := by
  unfold pathMaskStrMatches PathMask.fromStr aclTokenise
  rw [h]
  by_cases hw : isStrWildcard s = true
  · simp only [hw, if_true]
    rfl
  · simp only [hw, if_false, Bool.false_eq_true]
    rfl

theorem pathMaskList_any (ss : List String) (p : String) :
    (PathMaskList.fromStrList ss).matches p
      = ss.any (fun s => pathMaskStrMatches s p) := by
  unfold PathMaskList.fromStrList PathMaskList.matches aclMapMatches
  induction ss with
  | nil => rfl
  | cons s ss ih =>
    by_cases hs : (s == "") = true
    · have hs' : s = "" := by simpa using hs
      subst hs'
      simp only [List.filter_cons, hs]
      simp only [List.any_cons]
      rw [show pathMaskStrMatches "" p = false from rfl]
      simpa using ih
    · have hs' : (s == "") = false := by simpa using hs
      simp only [List.filter_cons, hs', Bool.not_false, if_pos trivial]
      simp only [List.any_cons]
      rw [tokenise_eq_fromStr s hs' p, ih]

/-! ### C1 -/

/-- C1: for every OIDMaskList (whose stored masks satisfy the parser
invariant, as every constructor guarantees) and every OID,
`OIDMaskList::matches(oid)` is true iff some stored `OIDMask`
individually matches the OID per `OIDMask::matches`; likewise a
`PathMaskList` built from pattern strings matches a path iff some
individually-parsed `PathMask` in the list matches it per
`matches_split`; and parsing always yields invariant-satisfying masks. -/
theorem mask_list_matches_iff_some_mask_matches
    (l : OIDMaskList) (oid : OID) (ss : List String) (p : String)
    (hwf : ∀ m ∈ l.oidMasks, OIDMask.wf m = true) :
    l.matches oid = l.oidMasks.any (fun m => m.matches oid)
    ∧ (PathMaskList.fromStrList ss).matches p
        = ss.any (fun s => pathMaskStrMatches s p)
    ∧ (∀ s m, OIDMask.fromStr s = .ok m → OIDMask.wf m = true) := by
  refine ⟨?_, pathMaskList_any ss p, fun s m h => oidMask_fromStr_wf s m h⟩
  unfold OIDMaskList.matches aclMapMatches
  rw [any_map_general]
  exact any_congr_mem _ _ _ (fun m hm => aclMap_single_mask m (hwf m hm) oid)

theorem mask_list_matches_iff_some_mask_matches_witness :
    (∀ m ∈ (OIDMaskList.mk [⟨some ItemKind.sensor, ⟨some ["a", "#"]⟩⟩]).oidMasks,
      OIDMask.wf m = true)
    ∧ ((OIDMaskList.mk [⟨some ItemKind.sensor, ⟨some ["a", "#"]⟩⟩]).matches
          ⟨ItemKind.sensor, "a/b"⟩
        = ([⟨some ItemKind.sensor, ⟨some ["a", "#"]⟩⟩] : List OIDMask).any
            (fun m => m.matches ⟨ItemKind.sensor, "a/b"⟩)
      ∧ (PathMaskList.fromStrList ["x/#", ""]).matches "x/y"
          = (["x/#", ""] : List String).any (fun s => pathMaskStrMatches s "x/y")
      ∧ (∀ s m, OIDMask.fromStr s = .ok m → OIDMask.wf m = true)) :=
  ⟨by decide,
    mask_list_matches_iff_some_mask_matches
      (OIDMaskList.mk [⟨some ItemKind.sensor, ⟨some ["a", "#"]⟩⟩])
      ⟨ItemKind.sensor, "a/b"⟩ ["x/#", ""] "x/y" (by decide)⟩

/-! ### C2 -/

/-- A subject segment list that matches mask tokens `ts` literally in
lockstep: same length, each token non-wildcard, each pair equal or the
token an any-token. -/
def litMatch : List String → List String → Bool
  | [], [] => true
  | t :: ts, s :: ss => !isStrWildcard t && (isStrAny t || t == s) && litMatch ts ss
  | _, _ => false

/-- C2 counterexample: the mask parsed from `a/b/#` does not match the
subject `a/b` — a subject exhausted exactly when the All token is reached
fails, because `matches_split` advances the subject iterator first and,
on exhaustion, requires the mask to be exhausted too. -/
theorem all_token_zero_remaining_counterexample :
    PathMask.fromStr "a/b/#" = .ok ⟨some ["a", "b", "#"]⟩
    ∧ PathMask.matchesPath ⟨some ["a", "b", "#"]⟩ "a/b" = false
    ∧ (PathMaskList.fromStrList ["a/b/#"]).matches "a/b" = false := by decide

/-- C2 amended: reaching an All token while a subject segment remains
yields true regardless of how many further segments follow (including
none); but a subject with exactly as many segments as the tokens before
the All token does not match — the All token consumes at least one
segment. -/
theorem all_token_needs_remaining_segment (ts segs : List String)
    (h : litMatch ts segs = true) :
    PathMask.matchesSplit ⟨some (ts ++ ["#"])⟩ segs = false
    ∧ ∀ x rest, PathMask.matchesSplit ⟨some (ts ++ ["#"])⟩ (segs ++ x :: rest) = true := by
  induction ts generalizing segs with
  | nil =>
    match segs with
    | [] => exact ⟨rfl, fun x rest => rfl⟩
    | s :: ss => simp [litMatch] at h
  | cons t ts' ih =>
    match segs with
    | [] => simp [litMatch] at h
    | s :: ss =>
      simp only [litMatch, Bool.and_eq_true, Bool.not_eq_true', Bool.or_eq_true] at h
      have hcond : (!isStrAny t && s != t) = false := by
        rcases h.1.2 with ha | he
        · simp [ha]
        · have : t = s := by simpa using he
          subst this
          simp
      have hstep : ∀ rest, PathMask.matchesSplit ⟨some ((t :: ts') ++ ["#"])⟩ (s :: rest)
          = PathMask.matchesSplit ⟨some (ts' ++ ["#"])⟩ rest := by
        intro rest
        simp only [PathMask.matchesSplit, List.cons_append]
        rw [msLoop_cons, if_neg (by simp [h.1.1]), hcond]
        simp
      obtain ⟨ih1, ih2⟩ := ih ss h.2
      refine ⟨by rw [hstep ss]; exact ih1, fun x rest => ?_⟩
      exact (hstep (ss ++ x :: rest)).trans (ih2 x rest)

theorem all_token_needs_remaining_segment_witness :
    litMatch ["a", "b"] ["a", "b"] = true
    ∧ (PathMask.matchesSplit ⟨some (["a", "b"] ++ ["#"])⟩ ["a", "b"] = false
      ∧ ∀ x rest,
          PathMask.matchesSplit ⟨some (["a", "b"] ++ ["#"])⟩ (["a", "b"] ++ x :: rest) = true) :=
  ⟨by decide, all_token_needs_remaining_segment ["a", "b"] ["a", "b"] (by decide)⟩

/-! ### C5 -/

/-- C5: scanning a non-empty, non-bare-wildcard pattern left to right,
the first All token terminates the chunk list and everything after it is
discarded; `a/*/b` parses equal to `a/#`, and the parsed mask renders its
terminal all-marker as `#`. -/
theorem first_all_token_truncates :
    (∀ (a : List String) (w : String) (b : List String),
      (∀ c ∈ a, isStrWildcard c = false) → isStrWildcard w = true →
        truncChunks (a ++ w :: b) = a ++ ["#"])
    ∧ (∀ s, (s == "") = false → isStrWildcard s = false →
        PathMask.fromStr s = .ok ⟨some (truncChunks (splitSeg s))⟩)
    ∧ PathMask.fromStr "a/*/b" = PathMask.fromStr "a/#"
    ∧ (PathMask.fromStr "a/*/b").map PathMask.render = .ok "a/#" := by
  refine ⟨?_, ?_, by decide, by decide⟩
  · intro a w b ha hw
    induction a with
    | nil => simp [truncChunks, hw]
    | cons c cs ih =>
      rw [List.cons_append, truncChunks_cons,
        if_neg (by simp [ha c (List.mem_cons_self c cs)]),
        ih (fun x hx => ha x (List.mem_cons_of_mem c hx))]
      rfl
  · intro s h1 h2
    simp [PathMask.fromStr, h1, h2]

theorem first_all_token_truncates_witness :
    ((∀ c ∈ (["a"] : List String), isStrWildcard c = false) ∧ isStrWildcard "*" = true
      ∧ truncChunks (["a"] ++ "*" :: ["b"]) = ["a"] ++ ["#"])
    ∧ (("a/b" == "") = false ∧ isStrWildcard "a/b" = false
      ∧ PathMask.fromStr "a/b" = .ok ⟨some (truncChunks (splitSeg "a/b"))⟩) :=
  ⟨⟨by decide, by decide,
      first_all_token_truncates.1 ["a"] "*" ["b"] (by decide) (by decide)⟩,
    ⟨by decide, by decide,
      first_all_token_truncates.2.1 "a/b" (by decide) (by decide)⟩⟩

/-! ### C9 -/

/-- C9: the masks parsed from `sensor:#` and `sensor:#/x` are unequal
values, yet both render as `sensor:#`; both can coexist as distinct
members of an OIDMaskList's deduplicating set, whose serialized string
list then contains `sensor:#` twice. -/
theorem unequal_masks_render_identically :
    OIDMask.fromStr "sensor:#" = .ok ⟨some ItemKind.sensor, ⟨none⟩⟩
    ∧ OIDMask.fromStr "sensor:#/x" = .ok ⟨some ItemKind.sensor, ⟨some ["#"]⟩⟩
    ∧ (⟨some ItemKind.sensor, ⟨none⟩⟩ : OIDMask) ≠ ⟨some ItemKind.sensor, ⟨some ["#"]⟩⟩
    ∧ OIDMask.render ⟨some ItemKind.sensor, ⟨none⟩⟩ = "sensor:#"
    ∧ OIDMask.render ⟨some ItemKind.sensor, ⟨some ["#"]⟩⟩ = "sensor:#"
    ∧ OIDMaskList.fromStrList ["sensor:#", "sensor:#/x"]
        = .ok ⟨[⟨some ItemKind.sensor, ⟨none⟩⟩, ⟨some ItemKind.sensor, ⟨some ["#"]⟩⟩]⟩
    ∧ OIDMaskList.asStringVec
        ⟨[⟨some ItemKind.sensor, ⟨none⟩⟩, ⟨some ItemKind.sensor, ⟨some ["#"]⟩⟩]⟩
        = ["sensor:#", "sensor:#"] := by decide

/-! ### C10 -/

/-- C10: a bare kind name with no separator (e.g. `sensor`) parses
successfully to a mask with that kind filter and the match-all path,
equal to the parse of `sensor:#`, and it matches exactly the OIDs of
that kind. -/
theorem bare_kind_parses_to_match_all :
    OIDMask.fromStr "sensor" = .ok ⟨some ItemKind.sensor, PathMask.newAny⟩
    ∧ OIDMask.fromStr "sensor" = OIDMask.fromStr "sensor:#"
    ∧ ∀ oid : OID,
        OIDMask.matches ⟨some ItemKind.sensor, PathMask.newAny⟩ oid
          = (oid.kind == ItemKind.sensor) := by
  refine ⟨by decide, by decide, fun oid => ?_⟩
  simp only [OIDMask.matches, PathMask.newAny, PathMask.matchesSplit, Bool.and_true]
  cases oid.kind <;> rfl

/-! ### Sample policy records for concrete evaluation -/

/-- A category with empty mask lists. -/
def emptyCat : AclItemsPvt := ⟨⟨[]⟩, ⟨[]⟩, ⟨[]⟩⟩

/-- A category whose every list matches everything. -/
def matchAllCat : AclItemsPvt :=
  ⟨⟨[OIDMask.newAny]⟩, PathMaskList.fromStrList ["#"], PathMaskList.fromStrList ["#"]⟩

/-- A non-admin record that allows every write but deny-reads everything. -/
def denyReadAcl : Acl :=
  ⟨"t", false, emptyCat, matchAllCat, matchAllCat, emptyCat, [], ["t"]⟩

/-- An admin record with contradictory lists: nothing allowed, everything
denied, no ops. -/
def adminContradictoryAcl : Acl :=
  ⟨"root", true, emptyCat, emptyCat, matchAllCat, matchAllCat, [], []⟩

/-- The policy record of the repository's `test_rpvt_acl` test. -/
def rpvtTestAcl : Acl :=
  ⟨"test", false,
    ⟨⟨[]⟩, ⟨[]⟩, PathMaskList.fromStrList ["node1/res", "node2/res/#"]⟩,
    emptyCat,
    ⟨⟨[]⟩, ⟨[]⟩, PathMaskList.fromStrList ["node2/res/secret"]⟩,
    emptyCat, [], ["test"]⟩

/-! ### C3 -/

/-- C3: `check_item_write` equals
`admin ∨ (write.items ∧ ¬deny_write.items ∧ ¬deny_read.items)`; for a
non-admin record it is false whenever `deny_read.items` matches, and
`check_pvt_write` is false whenever `deny_read.pvt` matches. -/
theorem write_checks_deny_read_precedence (a : Acl) (oid : OID) (p : String) :
    a.checkItemWrite oid
      = (a.admin || (a.write.items.matches oid
          && !a.denyWrite.items.matches oid
          && !a.denyRead.items.matches oid))
    ∧ (a.admin = false → a.denyRead.items.matches oid = true →
        a.checkItemWrite oid = false)
    ∧ (a.admin = false → a.denyRead.pvt.matches p = true →
        a.checkPvtWrite p = false) := by
  refine ⟨rfl, fun h1 h2 => ?_, fun h1 h2 => ?_⟩
  · simp [Acl.checkItemWrite, h1, h2]
  · simp [Acl.checkPvtWrite, h1, h2]

theorem write_checks_deny_read_precedence_witness :
    (denyReadAcl.checkItemWrite ⟨ItemKind.sensor, "a"⟩
      = (denyReadAcl.admin || (denyReadAcl.write.items.matches ⟨ItemKind.sensor, "a"⟩
          && !denyReadAcl.denyWrite.items.matches ⟨ItemKind.sensor, "a"⟩
          && !denyReadAcl.denyRead.items.matches ⟨ItemKind.sensor, "a"⟩)))
    ∧ denyReadAcl.checkItemWrite ⟨ItemKind.sensor, "a"⟩ = false
    ∧ denyReadAcl.checkPvtWrite "x/y" = false :=
  have h := write_checks_deny_read_precedence denyReadAcl ⟨ItemKind.sensor, "a"⟩ "x/y"
  ⟨h.1, h.2.1 (by decide) (by decide), h.2.2 (by decide) (by decide)⟩

/-! ### C7 -/

/-- C7: an admin record passes every check and every `require_*`,
whatever the mask lists and ops contain. -/
theorem admin_forces_all_checks (a : Acl) (h : a.admin = true) :
    a.checkAdmin = true
    ∧ (∀ op, a.checkOp op = true)
    ∧ (∀ oid, a.checkItemRead oid = true)
    ∧ (∀ oid, a.checkItemWrite oid = true)
    ∧ (∀ p, a.checkPvtRead p = true)
    ∧ (∀ p, a.checkPvtWrite p = true)
    ∧ (∀ p, a.checkRpvtRead p = true)
    ∧ a.requireAdmin = .ok ()
    ∧ (∀ op, a.requireOp op = .ok ())
    ∧ (∀ oid, a.requireItemRead oid = .ok ())
    ∧ (∀ oid, a.requireItemWrite oid = .ok ())
    ∧ (∀ p, a.requirePvtRead p = .ok ())
    ∧ (∀ p, a.requirePvtWrite p = .ok ())
    ∧ (∀ p, a.requireRpvtRead p = .ok ()) := by
  simp [Acl.checkAdmin, Acl.checkOp, Acl.checkItemRead, Acl.checkItemWrite,
    Acl.checkPvtRead, Acl.checkPvtWrite, Acl.checkRpvtRead,
    Acl.requireAdmin, Acl.requireOp, Acl.requireItemRead, Acl.requireItemWrite,
    Acl.requirePvtRead, Acl.requirePvtWrite, Acl.requireRpvtRead, h]

theorem admin_forces_all_checks_witness :
    adminContradictoryAcl.admin = true
    ∧ (adminContradictoryAcl.checkAdmin = true
      ∧ (∀ op, adminContradictoryAcl.checkOp op = true)
      ∧ (∀ oid, adminContradictoryAcl.checkItemRead oid = true)
      ∧ (∀ oid, adminContradictoryAcl.checkItemWrite oid = true)
      ∧ (∀ p, adminContradictoryAcl.checkPvtRead p = true)
      ∧ (∀ p, adminContradictoryAcl.checkPvtWrite p = true)
      ∧ (∀ p, adminContradictoryAcl.checkRpvtRead p = true)
      ∧ adminContradictoryAcl.requireAdmin = .ok ()
      ∧ (∀ op, adminContradictoryAcl.requireOp op = .ok ())
      ∧ (∀ oid, adminContradictoryAcl.requireItemRead oid = .ok ())
      ∧ (∀ oid, adminContradictoryAcl.requireItemWrite oid = .ok ())
      ∧ (∀ p, adminContradictoryAcl.requirePvtRead p = .ok ())
      ∧ (∀ p, adminContradictoryAcl.requirePvtWrite p = .ok ())
      ∧ (∀ p, adminContradictoryAcl.requireRpvtRead p = .ok ())) :=
  ⟨by decide, admin_forces_all_checks adminContradictoryAcl (by decide)⟩

/-! ### C4 -/

theorem splitN2_no_slash (p : String) (h : '/' ∉ p.data) : splitN2 p = (p, none) := by
  unfold splitN2
  rw [splitSeg_no_slash p h]

theorem stripPfx_append (pre u : String) : stripPfx pre (pre ++ u) = some u := by
  unfold stripPfx
  rw [if_pos ?hp]
  · rw [string_data_append, List.drop_left, asString_data]
  case hp =>
    rw [string_data_append]
    exact List.isPrefixOf_iff_prefix.mpr (List.prefix_append _ _)

theorem stripPfx_https_http (u : String) : stripPfx "https://" ("http://" ++ u) = none := by
  unfold stripPfx
  rw [if_neg ?hp]
  case hp =>
    intro hpre
    have hd : ("http://" ++ u).data = 'h' :: 't' :: 't' :: 'p' :: ':' :: '/' :: '/' :: u.data := by
      rw [string_data_append]
      rfl
    rw [hd] at hpre
    have hs : "https://".data = ['h', 't', 't', 'p', 's', ':', '/', '/'] := rfl
    rw [hs] at hpre
    simp [List.isPrefixOf] at hpre

/-- C4: `check_rpvt_read` denies when the path has no `/` separator (for
a non-admin record), and otherwise splits on the first `/` into node and
uri, strips an exact leading `https://` or `http://` scheme from the uri,
and equals `admin ∨ (read.rpvt.matches(node/stripped) ∧
¬deny_read.rpvt.matches(node/stripped))`. -/
theorem rpvt_read_rule (a : Acl) (p : String) :
    (hasChar p '/' = false → a.admin = false → a.checkRpvtRead p = false)
    ∧ (∀ node uri, splitN2 p = (node, some uri) →
        a.checkRpvtRead p
          = (a.admin || (a.read.rpvt.matches (node ++ "/" ++ stripScheme uri)
              && !a.denyRead.rpvt.matches (node ++ "/" ++ stripScheme uri))))
    ∧ (∀ u, stripScheme ("https://" ++ u) = u)
    ∧ (∀ u, stripScheme ("http://" ++ u) = u) := by
  refine ⟨fun h1 h2 => ?_, fun node uri h => ?_, fun u => ?_, fun u => ?_⟩
  · have h' : '/' ∉ p.data := (contains_eq_false_iff p.data '/').mp (by simpa [hasChar] using h1)
    unfold Acl.checkRpvtRead
    rw [h2, if_neg (by simp), splitN2_no_slash p h']
  · unfold Acl.checkRpvtRead
    rw [h]
    cases ha : a.admin with
    | true => simp
    | false => simp
  · unfold stripScheme
    rw [stripPfx_append]
  · unfold stripScheme
    rw [stripPfx_https_http, stripPfx_append]

theorem rpvt_read_rule_witness :
    (hasChar "nodeonly" '/' = false ∧ rpvtTestAcl.admin = false
      ∧ rpvtTestAcl.checkRpvtRead "nodeonly" = false)
    ∧ (splitN2 "node2/https://res/res1" = ("node2", some "https://res/res1")
      ∧ rpvtTestAcl.checkRpvtRead "node2/https://res/res1"
          = (rpvtTestAcl.admin
            || (rpvtTestAcl.read.rpvt.matches
                  ("node2" ++ "/" ++ stripScheme "https://res/res1")
                && !rpvtTestAcl.denyRead.rpvt.matches
                  ("node2" ++ "/" ++ stripScheme "https://res/res1")))) :=
  ⟨⟨by decide, by decide,
      (rpvt_read_rule rpvtTestAcl "nodeonly").1 (by decide) (by decide)⟩,
    ⟨by decide,
      (rpvt_read_rule rpvtTestAcl "node2/https://res/res1").2.1
        "node2" "https://res/res1" (by decide)⟩⟩

/-! ### C6 -/

theorem wildcard_utf8_one (p : String) (h : isStrWildcard p = true) :
    p.utf8ByteSize = 1 := by
  rcases (isStrWildcard_true_iff p).mp h with rfl | rfl <;> rfl

theorem wcChunkBad_zero (p : String) :
    wcChunkBad 0 p = (isStrAny p || isStrWildcard p) := by
  unfold wcChunkBad
  by_cases hw : isStrWildcard p = true
  · rw [hw, wildcard_utf8_one p hw]
    simp
  · have hw' : isStrWildcard p = false := by simpa using hw
    rw [hw']
    simp

theorem wcChunkBad_pos (i : Nat) (p : String) (h : 1 ≤ i) :
    wcChunkBad i p = isStrAny p := by
  unfold wcChunkBad
  by_cases hw : isStrWildcard p = true
  · rw [hw, wildcard_utf8_one p hw]
    simp
    omega
  · have hw' : isStrWildcard p = false := by simpa using hw
    rw [hw']
    simp

theorem wcScanBad_pos (ps : List String) (i : Nat) (h : 1 ≤ i) :
    wcScanBad i ps = ps.any isStrAny := by
  induction ps generalizing i with
  | nil => rfl
  | cons p ps ih =>
    simp only [wcScanBad, List.any_cons]
    rw [wcChunkBad_pos i p h, ih (i + 1) (by omega)]

theorem wcScanBad_zero_eq_false_iff (ch : List String) :
    wcScanBad 0 ch = false
      ↔ ((∀ c ∈ ch, isStrAny c = false)
        ∧ ∀ c, ch.head? = some c → isStrWildcard c = false) := by
  match ch with
  | [] => simp [wcScanBad]
  | p :: ps =>
    simp only [wcScanBad, wcChunkBad_zero, wcScanBad_pos ps 1 (by omega),
      Bool.or_eq_false_iff, List.any_eq_false, List.head?_cons, Bool.not_eq_true]
    constructor
    · rintro ⟨⟨ha, hw⟩, hall⟩
      refine ⟨fun c hc => ?_, fun c hc => ?_⟩
      · rcases List.mem_cons.mp hc with rfl | hc
        · exact ha
        · exact hall c hc
      · cases hc
        exact hw
    · rintro ⟨hall, hhd⟩
      exact ⟨⟨hall p (List.mem_cons_self p ps), hhd p rfl⟩,
        fun c hc => hall c (List.mem_cons_of_mem p hc)⟩

theorem new0Unchecked_isOk_iff (k : ItemKind) (id : String) :
    (OID.new0Unchecked k id).isOk = true
      ↔ (id ≠ "" ∧ id.utf8ByteSize + k.asStr.utf8ByteSize < 65535) := by
  unfold OID.new0Unchecked
  by_cases h1 : id = ""
  · rw [if_pos (by simpa using h1)]
    exact ⟨fun h => Bool.noConfusion h, fun hc => absurd h1 hc.1⟩
  · rw [if_neg (by simpa using h1)]
    by_cases h2 : id.utf8ByteSize + k.asStr.utf8ByteSize ≥ 65535
    · rw [if_pos h2]
      exact ⟨fun h => Bool.noConfusion h, fun hc => absurd h2 (by omega)⟩
    · rw [if_neg h2]
      exact ⟨fun _ => ⟨h1, by omega⟩, fun _ => rfl⟩

/-- C6 counterexample: the conversion failures carry the InvalidData
error kind, not Unsupported — `sensor:+/#` fails with InvalidData — and
the mask parsed from `sensor:#/x`, whose only All token is its final
(whole-suffix) chunk, fails as well although the claimed success
condition holds for it. -/
theorem wildcard_oid_unsupported_counterexample :
    (OIDMask.fromStr "sensor:+/#").bind OIDMask.toWildcardOid
        = .error ⟨ErrKind.invalidData, ERR_INVALID_OID_MASK_OP⟩
    ∧ ErrKind.invalidData ≠ ErrKind.unsupported
    ∧ OIDMask.fromStr "sensor:#/x" = .ok ⟨some ItemKind.sensor, ⟨some ["#"]⟩⟩
    ∧ (OIDMask.fromStr "sensor:#/x").bind OIDMask.toWildcardOid
        = .error ⟨ErrKind.invalidData, ERR_INVALID_OID_MASK_OP⟩ := by decide

/-- C6 amended: `to_wildcard_oid` fails with the InvalidData kind (never
Unsupported); it requires a concrete kind; a match-all path always
converts; a chunk path converts iff it has no Any chunk, no All chunk in
first position (so the single-chunk `#` path fails), and its rendering is
a non-empty id within the length bound.  `sensor:tests/#` renders
`sensor:tests/%` and `sensor:#` renders `sensor:%`. -/
theorem wildcard_oid_conversion_rule :
    (∀ (m : OIDMask) (e : Err), m.toWildcardOid = .error e → e.kind = ErrKind.invalidData)
    ∧ (∀ m : OIDMask, m.kind = none → (m.toWildcardOid).isOk = false)
    ∧ (∀ (m : OIDMask) (k : ItemKind), m.kind = some k → m.path.chunks = none →
        (m.toWildcardOid).isOk = true)
    ∧ (∀ (m : OIDMask) (k : ItemKind) (ch : List String), m.kind = some k →
        m.path.chunks = some ch →
        ((m.toWildcardOid).isOk = true ↔
          ((∀ c ∈ ch, isStrAny c = false)
            ∧ (∀ c, ch.head? = some c → isStrWildcard c = false)
            ∧ joinSeg ch ≠ ""
            ∧ (joinSeg ch).utf8ByteSize + k.asStr.utf8ByteSize < 65535)))
    ∧ ((OIDMask.fromStr "sensor:tests/#").bind OIDMask.toWildcardOid
        |>.map (fun o => (o.isWildcard, o.toWildcardStr "%"))) = .ok (true, "sensor:tests/%")
    ∧ ((OIDMask.fromStr "sensor:#").bind OIDMask.toWildcardOid
        |>.map (fun o => (o.isWildcard, o.toWildcardStr "%"))) = .ok (true, "sensor:%") := by
  refine ⟨?_, ?_, ?_, ?_, by decide, by decide⟩
  · intro m e h
    obtain ⟨kopt, ⟨chopt⟩⟩ := m
    unfold OIDMask.toWildcardOid at h
    match kopt, chopt with
    | none, _ => cases h; rfl
    | some k, some ch =>
      dsimp only at h
      split at h
      · cases h; rfl
      · unfold OID.new0Unchecked at h
        split at h
        · cases h; rfl
        · split at h
          · cases h; rfl
          · cases h
    | some k, none =>
      dsimp only at h
      unfold OID.new0Unchecked at h
      split at h
      · cases h; rfl
      · split at h
        · cases h; rfl
        · cases h
  · intro m h
    obtain ⟨kopt, ⟨chopt⟩⟩ := m
    cases h
    rfl
  · intro m k h1 h2
    obtain ⟨kopt, ⟨chopt⟩⟩ := m
    cases h1
    cases h2
    cases k <;> decide
  · intro m k ch h1 h2
    obtain ⟨kopt, ⟨chopt⟩⟩ := m
    cases h1
    cases h2
    unfold OIDMask.toWildcardOid
    dsimp only
    by_cases hbad : wcScanBad 0 ch = true
    · rw [if_pos hbad]
      simp only [Except.isOk, Except.toBool, Bool.false_eq_true, false_iff]
      intro hc
      rw [(wcScanBad_zero_eq_false_iff ch).mpr ⟨hc.1, hc.2.1⟩] at hbad
      cases hbad
    · have hbad' : wcScanBad 0 ch = false := by simpa using hbad
      rw [if_neg (by simp [hbad'])]
      have hrender : PathMask.render ⟨some ch⟩ = joinSeg ch := rfl
      rw [hrender, new0Unchecked_isOk_iff]
      obtain ⟨hall, hhd⟩ := (wcScanBad_zero_eq_false_iff ch).mp hbad'
      constructor
      · rintro ⟨hne, hlen⟩
        exact ⟨hall, hhd, hne, hlen⟩
      · rintro ⟨_, _, hne, hlen⟩
        exact ⟨hne, hlen⟩

theorem wildcard_oid_conversion_rule_witness :
    ((⟨some ItemKind.sensor, ⟨some ["+", "#"]⟩⟩ : OIDMask).toWildcardOid
        = .error (Err.invalidData ERR_INVALID_OID_MASK_OP))
    ∧ (Err.invalidData ERR_INVALID_OID_MASK_OP).kind = ErrKind.invalidData
    ∧ ((⟨none, ⟨none⟩⟩ : OIDMask).toWildcardOid).isOk = false
    ∧ ((⟨some ItemKind.sensor, ⟨none⟩⟩ : OIDMask).toWildcardOid).isOk = true
    ∧ (((⟨some ItemKind.sensor, ⟨some ["tests", "#"]⟩⟩ : OIDMask).toWildcardOid).isOk = true ↔
        ((∀ c ∈ (["tests", "#"] : List String), isStrAny c = false)
          ∧ (∀ c, (["tests", "#"] : List String).head? = some c → isStrWildcard c = false)
          ∧ joinSeg ["tests", "#"] ≠ ""
          ∧ (joinSeg ["tests", "#"]).utf8ByteSize + ItemKind.sensor.asStr.utf8ByteSize < 65535)) :=
  ⟨by decide,
    wildcard_oid_conversion_rule.1 ⟨some ItemKind.sensor, ⟨some ["+", "#"]⟩⟩ _ (by decide),
    wildcard_oid_conversion_rule.2.1 ⟨none, ⟨none⟩⟩ rfl,
    wildcard_oid_conversion_rule.2.2.1 ⟨some ItemKind.sensor, ⟨none⟩⟩ ItemKind.sensor rfl rfl,
    wildcard_oid_conversion_rule.2.2.2.1 ⟨some ItemKind.sensor, ⟨some ["tests", "#"]⟩⟩
      ItemKind.sensor ["tests", "#"] rfl rfl⟩

/-! ### C8 -/

theorem itemKind_fromStr_error_kind (s : String) (e : Err)
    (h : ItemKind.fromStr s = .error e) : e.kind = ErrKind.invalidData := by
  unfold ItemKind.fromStr at h
  split at h
  · cases h
  · split at h
    · cases h
    · split at h
      · cases h
      · split at h
        · cases h
        · cases h; rfl

theorem pathMask_fromStr_error_kind (s : String) (e : Err)
    (h : PathMask.fromStr s = .error e) : e.kind = ErrKind.invalidData := by
  unfold PathMask.fromStr at h
  split at h
  · cases h; rfl
  · split at h
    · cases h
    · cases h

theorem oidMask_check_error_kind (s : String) (e : Err)
    (h : OIDMask.check s = .error e) : e.kind = ErrKind.invalidData := by
  unfold OIDMask.check at h
  split at h
  · cases h; rfl
  · split at h
    · cases h; rfl
    · cases h

theorem oidMask_fromStr_error_kind (s : String) (e : Err)
    (h : OIDMask.fromStr s = .error e) : e.kind = ErrKind.invalidData := by
  unfold OIDMask.fromStr OIDMask.parseOidMask at h
  split at h
  · cases h
  · split at h
    · split at h
      · rename_i e2 he
        cases h
        exact itemKind_fromStr_error_kind s e he
      · cases h
    · split at h
      · cases h; rfl
      · dsimp only at h
        split at h
        · rename_i hin
          cases h
          split at hin
          · cases hin
          · split at hin
            · rename_i he
              cases hin
              exact itemKind_fromStr_error_kind _ _ he
            · cases hin
        · split at h
          · rename_i he
            cases h
            exact oidMask_check_error_kind _ _ he
          · split at h
            · rename_i he
              cases h
              exact pathMask_fromStr_error_kind _ _ he
            · cases h

theorem collectOidMasks_error_kind (ss : List String) (e : Err)
    (h : collectOidMasks ss = .error e) : e.kind = ErrKind.invalidData := by
  induction ss with
  | nil => cases h
  | cons s ss ih =>
    unfold collectOidMasks at h
    split at h
    · rename_i he
      cases h
      exact oidMask_fromStr_error_kind s e he
    · split at h
      · rename_i he
        cases h
        exact ih he
      · cases h

theorem collectOidMasks_empty_entry (ss : List String) (h : "" ∈ ss) :
    (collectOidMasks ss).isOk = false := by
  induction ss with
  | nil => simp at h
  | cons s ss ih =>
    unfold collectOidMasks
    rcases List.mem_cons.mp h with rfl | hmem
    · rfl
    · have hss := ih hmem
      rcases hf : OIDMask.fromStr s with e | m
      · rfl
      · rcases hcoll : collectOidMasks ss with e2 | ms
        · rfl
        · rw [hcoll] at hss
          cases hss

/-- C8 counterexample: `OIDMaskList::from_str_list` does not skip an
empty entry: a list containing an empty string alongside a valid pattern
fails with InvalidData instead of constructing successfully. -/
theorem oid_mask_list_empty_entry_counterexample :
    OIDMaskList.fromStrList ["sensor:a", ""]
      = .error (Err.invalidData "Invalid item type: ")
    ∧ (OIDMaskList.fromStrList ["sensor:a", ""]).isOk = false := by decide

/-- C8 amended: the `PathMaskList` textual constructors skip empty
entries (matching is as if they were absent, and every non-empty string
parses as a `PathMask`, so construction is total); the `OIDMaskList`
textual constructors do not skip them — any empty entry makes
construction fail — and every construction failure carries the
InvalidData kind. -/
theorem mask_list_empty_entry_rule :
    (∀ ss p, (PathMaskList.fromStrList ss).matches p
        = (PathMaskList.fromStrList (ss.filter (fun s => !(s == "")))).matches p)
    ∧ (∀ s : String, (s == "") = false → (PathMask.fromStr s).isOk = true)
    ∧ (∀ ss : List String, "" ∈ ss → (OIDMaskList.fromStrList ss).isOk = false)
    ∧ (∀ (ss : List String) (e : Err), OIDMaskList.fromStrList ss = .error e →
        e.kind = ErrKind.invalidData) := by
  refine ⟨fun ss p => ?_, fun s h => ?_, fun ss h => ?_, fun ss e h => ?_⟩
  · unfold PathMaskList.fromStrList
    rw [List.filter_filter]
    simp
  · unfold PathMask.fromStr
    rw [h, if_neg (by simp)]
    split <;> rfl
  · unfold OIDMaskList.fromStrList
    have hc := collectOidMasks_empty_entry ss h
    rcases hcoll : collectOidMasks ss with e2 | ms
    · rfl
    · rw [hcoll] at hc
      cases hc
  · unfold OIDMaskList.fromStrList at h
    split at h
    · rename_i he
      cases h
      exact collectOidMasks_error_kind ss e he
    · cases h

theorem mask_list_empty_entry_rule_witness :
    ((PathMaskList.fromStrList ["a/b", "", "c"]).matches "a/b"
      = (PathMaskList.fromStrList ((["a/b", "", "c"] : List String).filter
          (fun s => !(s == "")))).matches "a/b")
    ∧ (("a/b" == "") = false ∧ (PathMask.fromStr "a/b").isOk = true)
    ∧ ("" ∈ (["sensor:a", ""] : List String)
      ∧ (OIDMaskList.fromStrList ["sensor:a", ""]).isOk = false)
    ∧ (OIDMaskList.fromStrList ["sensor:a", ""]
        = .error (Err.invalidData "Invalid item type: ")
      ∧ (Err.invalidData "Invalid item type: ").kind = ErrKind.invalidData) :=
  ⟨mask_list_empty_entry_rule.1 ["a/b", "", "c"] "a/b",
    ⟨by decide, mask_list_empty_entry_rule.2.1 "a/b" (by decide)⟩,
    ⟨by decide, mask_list_empty_entry_rule.2.2.1 ["sensor:a", ""] (by decide)⟩,
    ⟨by decide, mask_list_empty_entry_rule.2.2.2 ["sensor:a", ""] _ (by decide)⟩⟩

end Eva
